import Mathlib

/-!
Shallow embedding of the youtube-comment-scraper-generator pipeline
(src/index.js): the fetch-filter-paginate loop `getComments`, the
per-record filter, the renderer filename computation, the date-label
computation of `generateCommentHTML`, and the custom-render path
`generateCustomComments`.  External collaborators (the YouTube API,
puppeteer, date-fns) are modelled as explicit oracles; the run is
modelled as a trace of observable events (page fetches, rejection
logs, rendered images, the top-level error log).
-/

namespace YtCommentScraper

/-- Output theme, restricted by validation to exactly dark and light. -/
inductive Theme where
  | dark
  | light
  deriving DecidableEq, Repr

/-- A raw comment-thread item as the comment source returns it: the fields of
`item.snippet.topLevelComment.snippet` that the code reads, plus the optional
`item.replies` object (only the length of its `comments` list is used). -/
structure Item where
  textDisplay : String
  likeCount : Nat
  replies : Option (List Unit)
  authorDisplayName : String
  authorProfileImageUrl : String
  publishedAt : String
  deriving DecidableEq, Repr

/-- The `commentData` record built for an accepted comment before rendering. -/
structure CommentData where
  avatar : String
  username : String
  datePosted : String
  likeCount : Nat
  content : String
  deriving DecidableEq, Repr

/-- The configuration of `getComments` after destructuring with defaults:
`maxChars = none` models the default `Infinity`. -/
structure Params where
  searchTerms : List String
  maxLimit : Nat
  minLikes : Nat
  minReplies : Nat
  filteredWords : List String
  maxChars : Option Nat
  theme : Theme
  deriving DecidableEq, Repr

/-- One entry of the `reason` array pushed by the filter; each constructor
carries the data interpolated into the corresponding message string. -/
inductive Reason where
  | notEnoughLikes (needed had : Nat)
  | notEnoughReplies (needed had : Nat)
  | containedFilteredWord
  | exceededMaxChars (allowed : Option Nat) (had : Nat)
  deriving DecidableEq, Repr

/-- Errors that can be thrown inside the try block of `getComments`:
a failed page request, a failed puppeteer screenshot, or the RangeError
date-fns raises when `formatDistanceToNow` receives an invalid date. -/
inductive Err where
  | sourceFail (code : Nat)
  | screenshotFail (code : Nat)
  | invalidTimeValue
  deriving DecidableEq, Repr

/-- Observable events of a run, in order: a page request issued to the
comment source, a rejection log line, a rendered image written to disk,
and the single top-level error log of the catch block. -/
inductive Event where
  | fetchPage (videoId : String)
  | rejectLog (username : String) (reasons : List Reason)
  | render (data : CommentData) (filePath : String)
  | errorLog (e : Err)
  deriving DecidableEq, Repr

/-- JavaScript lowers one code point: the Unicode special-casing entry for
U+0130 (capital dotted I) produces the two code points i and U+0307; every
other code point takes its one-to-one simple lowercase mapping (modelled by
the per-character fold, which is the identity outside the simple pairs). -/
def jsLowerChar (c : Char) : List Char :=
  if c.toNat = 304 then [Char.ofNat 105, Char.ofNat 775] else [c.toLower]

/-- JavaScript `String.prototype.toLowerCase`: code-point-wise lowering
including the length-changing U+0130 special casing. -/
def jsToLower (s : String) : String := String.mk (s.data.flatMap jsLowerChar)

/-- The number of UTF-16 code units one code point occupies in a JavaScript
string: an astral code point is a surrogate pair. -/
def utf16Units (c : Char) : Nat := if c.toNat < 65536 then 1 else 2

/-- JavaScript `String.prototype.length`: the UTF-16 code-unit count. -/
def jsLength (s : String) : Nat := (s.data.map utf16Units).sum

/-- JavaScript `s.includes(pat)`: substring containment. -/
def jsIncludes (s pat : String) : Bool := decide (pat.data <:+: s.data)

/-- The `matched` flag of the item loop: some search term, case-folded,
occurs in the (already case-folded) comment text. -/
def matchesRecord (searchTerms : List String) (commentText : String) : Bool :=
  searchTerms.any fun term => jsIncludes commentText (jsToLower term)

/-- The computation `item.replies ? item.replies.comments.length : 0`. -/
def replyCountOf (item : Item) : Nat :=
  match item.replies with
  | some comments => comments.length
  | none => 0

/-- The comparison `commentText.length > maxChars`; with the default
`maxChars = Infinity` (modelled as `none`) it is always false. -/
def exceedsMaxChars (len : Nat) (maxChars : Option Nat) : Bool :=
  match maxChars with
  | none => false
  | some m => decide (m < len)

/-- The four threshold checks of the filter, evaluated independently in
source order, each appending one reason on failure. -/
def evalReasons (p : Params) (commentText : String) (likeCount replyCount : Nat) :
    List Reason :=
  (if likeCount < p.minLikes then [Reason.notEnoughLikes p.minLikes likeCount] else [])
    ++ (if replyCount < p.minReplies then
          [Reason.notEnoughReplies p.minReplies replyCount] else [])
    ++ (if p.filteredWords.any (fun word => jsIncludes commentText (jsToLower word)) then
          [Reason.containedFilteredWord] else [])
    ++ (if exceedsMaxChars (jsLength commentText) p.maxChars then
          [Reason.exceededMaxChars p.maxChars (jsLength commentText)] else [])

/-- The per-record filter step: `none` when the record does not match any
search term (silently skipped), `some reasons` when it matched and went
through the four checks. -/
def evaluate (p : Params) (item : Item) : Option (List Reason) :=
  let commentText := jsToLower item.textDisplay
  if matchesRecord p.searchTerms commentText then
    some (evalReasons p commentText item.likeCount (replyCountOf item))
  else none

/-- The `commentData` object built from an accepted item. -/
def commentDataOf (item : Item) : CommentData :=
  { avatar := item.authorProfileImageUrl
    username := item.authorDisplayName
    datePosted := item.publishedAt
    likeCount := item.likeCount
    content := item.textDisplay }

/-- One character of `username.replace(/[^a-z0-9]/gi, "_")`: characters
outside the (case-insensitive) alphanumeric class become an underscore. -/
def sanitizeChar (c : Char) : Char :=
  if ('a' ≤ c ∧ c ≤ 'z') ∨ ('A' ≤ c ∧ c ≤ 'Z') ∨ ('0' ≤ c ∧ c ≤ '9') then c else '_'

/-- The filename stem: replace non-alphanumerics, then lower-case. -/
def sanitizeUsername (username : String) : String :=
  jsToLower (String.mk (username.data.map sanitizeChar))

/-- The output path `path.join("comment-images", stem + ".png")`. -/
def imageFilePath (username : String) : String :=
  "comment-images/" ++ sanitizeUsername username ++ ".png"

/-- Milliseconds-since-epoch value of a valid JavaScript date. -/
abbrev DateMs := Int

/-- The date-fns and Date facilities used by `generateCommentHTML`, as
oracles: `parseISO` is the strict ISO-8601 parse (`none` models an invalid
result, detected by `isValid`), `newDate` is the permissive `new Date(s)`
constructor (`none` models an Invalid Date), and `formatDistanceToNow`
turns a valid date into a relative label. -/
structure DateLib where
  parseISO : String → Option DateMs
  newDate : String → Option DateMs
  formatDistanceToNow : DateMs → String

/-- The rendered comment document, abstracted to the values interpolated
into the HTML template. -/
structure RenderedComment where
  avatar : String
  username : String
  relativeDate : String
  content : String
  likeCount : Nat
  isDark : Bool
  deriving DecidableEq, Repr

/-- The date handling and template of `generateCommentHTML`: use
`parseISO(datePosted)` when valid, otherwise fall back to
`new Date(datePosted)`; `formatDistanceToNow` throws a RangeError
(modelled as `Err.invalidTimeValue`) when both produce an invalid date. -/
def generateCommentHTML (dates : DateLib) (commentData : CommentData)
    (theme : Theme) : Except Err RenderedComment :=
  let parsedDate : Option DateMs :=
    match dates.parseISO commentData.datePosted with
    | some d => some d
    | none => dates.newDate commentData.datePosted
  match parsedDate with
  | none => Except.error Err.invalidTimeValue
  | some d =>
      Except.ok
        { avatar := commentData.avatar
          username := commentData.username
          relativeDate := dates.formatDistanceToNow d
          content := commentData.content
          likeCount := commentData.likeCount
          isDark := decide (theme = Theme.dark) }

/-- The puppeteer screenshot step, as an oracle on the rendered document:
`none` is success, `some e` a thrown error. -/
abbrev ScreenshotFn := RenderedComment → Option Err

/-- The external facilities a run depends on. -/
structure Env where
  dates : DateLib
  shot : ScreenshotFn

/-- The renderer `generateCommentImage`: build the document, screenshot it,
and write the file at the sanitized-username path; any error propagates. -/
def generateCommentImage (env : Env) (commentData : CommentData)
    (theme : Theme) : Except Err String :=
  match generateCommentHTML env.dates commentData theme with
  | Except.error e => Except.error e
  | Except.ok doc =>
      match env.shot doc with
      | some e => Except.error e
      | none => Except.ok (imageFilePath commentData.username)

/-- One page response of the comment source: either a thrown request error
or the list of items of the page. -/
abbrev Page := Except Err (List Item)

/-- The data the comment source holds for a run: each video identifier with
its sequence of pages; a continuation token exists exactly while further
pages remain. -/
abbrev Source := List (String × List Page)

/-- The item loop over one fetched page: break when the quota is reached,
skip unmatched items, log rejections, render and count accepted items;
a render error aborts with the events so far.  Returns the updated total,
the events of the scan, and the error if one was thrown. -/
def processItems (p : Params) (env : Env) :
    List Item → Nat → Nat × List Event × Option Err
  | [], total => (total, [], none)
  | item :: rest, total =>
    if p.maxLimit ≤ total then (total, [], none)
    else
      match evaluate p item with
      | none => processItems p env rest total
      | some rs =>
        if 0 < rs.length then
          let (t, evs, e) := processItems p env rest total
          (t, Event.rejectLog item.authorDisplayName rs :: evs, e)
        else
          match generateCommentImage env (commentDataOf item) p.theme with
          | Except.error e => (total, [], some e)
          | Except.ok filePath =>
            let (t, evs, e) := processItems p env rest (total + 1)
            (t, Event.render (commentDataOf item) filePath :: evs, e)

/-- The do-while page loop for one video: fetch a page unconditionally,
scan its items, then continue only while a next-page token exists and the
quota is not reached. -/
def runPages (p : Params) (env : Env) (videoId : String) :
    List Page → Nat → Nat × List Event × Option Err
  | [], total => (total, [Event.fetchPage videoId], none)
  | page :: rest, total =>
    match page with
    | Except.error e => (total, [Event.fetchPage videoId], some e)
    | Except.ok items =>
      let (t, evs, e) := processItems p env items total
      match e with
      | some err => (t, Event.fetchPage videoId :: evs, some err)
      | none =>
        match rest with
        | [] => (t, Event.fetchPage videoId :: evs, none)
        | next :: more =>
          if t < p.maxLimit then
            let (t2, evs2, e2) := runPages p env videoId (next :: more) t
            (t2, Event.fetchPage videoId :: evs ++ evs2, e2)
          else (t, Event.fetchPage videoId :: evs, none)

/-- The outer loop over video identifiers: after each video, stop when the
quota is reached; any propagated error stops the iteration. -/
def runVideos (p : Params) (env : Env) :
    Source → Nat → Nat × List Event × Option Err
  | [], total => (total, [], none)
  | (videoId, pages) :: rest, total =>
    let (t, evs, e) := runPages p env videoId pages total
    match e with
    | some err => (t, evs, some err)
    | none =>
      if p.maxLimit ≤ t then (t, evs, none)
      else
        let (t2, evs2, e2) := runVideos p env rest t
        (t2, evs ++ evs2, e2)

/-- The whole `getComments` run: the loops inside a try block whose catch
logs the error once and swallows it, so the function always returns
normally with the trace produced so far. -/
def getComments (p : Params) (env : Env) (source : Source) : Nat × List Event :=
  match runVideos p env source 0 with
  | (t, evs, none) => (t, evs)
  | (t, evs, some err) => (t, evs ++ [Event.errorLog err])

/-- The custom-comments path: render every supplied record in order with
no filtering; an error propagates uncaught. -/
def generateCustomComments (env : Env) (theme : Theme) :
    List CommentData → List Event × Option Err
  | [] => ([], none)
  | comment :: rest =>
    match generateCommentImage env comment theme with
    | Except.error e => ([], some e)
    | Except.ok filePath =>
      let (evs, e) := generateCustomComments env theme rest
      (Event.render comment filePath :: evs, e)

/-- Number of rendered-image events in a trace. -/
def countRenders (evs : List Event) : Nat :=
  (evs.filter fun ev => match ev with | Event.render _ _ => true | _ => false).length

/-- Number of top-level error-log events in a trace. -/
def countErrorLogs (evs : List Event) : Nat :=
  (evs.filter fun ev => match ev with | Event.errorLog _ => true | _ => false).length

/-- The file paths written by the render events of a trace, in order. -/
def writtenPaths (evs : List Event) : List String :=
  evs.filterMap fun ev =>
    match ev with
    | Event.render _ filePath => some filePath
    | _ => none

/-! Concrete fixtures used to instantiate the theorems. -/

/-- Date oracles that always succeed. -/
def okDates : DateLib :=
  { parseISO := fun _ => some 0
    newDate := fun _ => some 0
    formatDistanceToNow := fun _ => "less than a minute ago" }

/-- Date oracles on which both the strict and the permissive parse fail. -/
def failDates : DateLib :=
  { parseISO := fun _ => none
    newDate := fun _ => none
    formatDistanceToNow := fun _ => "never" }

/-- An environment in which dates parse and screenshots succeed. -/
def okEnv : Env := { dates := okDates, shot := fun _ => none }

/-- A comment-thread item with the given text and like count. -/
def demoItem (txt : String) (likes : Nat) : Item :=
  { textDisplay := txt
    likeCount := likes
    replies := none
    authorDisplayName := "Alice"
    authorProfileImageUrl := "avatar"
    publishedAt := "2024-01-01T00:00:00Z" }

/-- A configuration searching for "cat" with quota 1 and no thresholds. -/
def demoParams : Params :=
  { searchTerms := ["cat"]
    maxLimit := 1
    minLikes := 0
    minReplies := 0
    filteredWords := []
    maxChars := some 200
    theme := Theme.dark }

/-- A configuration that matches every record (empty search term) but
requires 5 likes and at most 10 characters. -/
def strictParams : Params :=
  { searchTerms := [""]
    maxLimit := 10
    minLikes := 5
    minReplies := 0
    filteredWords := []
    maxChars := some 10
    theme := Theme.dark }

/-- A configuration with an empty search-term list. -/
def noTermsParams : Params :=
  { searchTerms := []
    maxLimit := 10
    minLikes := 0
    minReplies := 0
    filteredWords := []
    maxChars := none
    theme := Theme.dark }

/-- The search-for-cat configuration with a quota of 10. -/
def wideParams : Params :=
  { demoParams with maxLimit := 10 }

/-- A two-video source whose first video holds two matching records. -/
def demoSource : Source :=
  [("v1", [Except.ok [demoItem "cat a" 0, demoItem "cat b" 0]]),
   ("v2", [Except.ok [demoItem "cat c" 0]])]

/-- A source whose second page request throws. -/
def errSource : Source :=
  [("v1", [Except.ok [demoItem "cat a" 0], Except.error (Err.sourceFail 7)])]

/-- The username of the renderer filename scenario, "O'Brien!". -/
def obrienUsername : String :=
  String.mk ['O', Char.ofNat 39, 'B', 'r', 'i', 'e', 'n', '!']

/-- A custom comment record with the given username and content. -/
def demoComment (username content : String) : CommentData :=
  { avatar := "avatar"
    username := username
    datePosted := "2024-01-01T00:00:00Z"
    likeCount := 1
    content := content }

/-- Two distinct custom records whose usernames sanitize identically. -/
def collidingComments : List CommentData :=
  [demoComment "A" "first", demoComment "a" "second"]

/-- Two custom records with distinct sanitized usernames. -/
def distinctComments : List CommentData :=
  [demoComment "Alice" "first", demoComment "Bob" "second"]

/-- Content of six capital dotted-I characters (U+0130): six UTF-16 code
units raw, twelve once lowercased. -/
def dottedContent : String :=
  String.mk (List.replicate 6 (Char.ofNat 304))

/-! Counting helpers for traces. -/

@[simp] lemma countRenders_nil : countRenders [] = 0 := rfl

@[simp] lemma countRenders_cons_fetch (v : String) (l : List Event) :
    countRenders (Event.fetchPage v :: l) = countRenders l := rfl

@[simp] lemma countRenders_cons_reject (u : String) (rs : List Reason) (l : List Event) :
    countRenders (Event.rejectLog u rs :: l) = countRenders l := rfl

@[simp] lemma countRenders_cons_render (d : CommentData) (fp : String) (l : List Event) :
    countRenders (Event.render d fp :: l) = countRenders l + 1 := by
  simp [countRenders, List.filter]

@[simp] lemma countRenders_cons_errorLog (e : Err) (l : List Event) :
    countRenders (Event.errorLog e :: l) = countRenders l := rfl

@[simp] lemma countRenders_append (l₁ l₂ : List Event) :
    countRenders (l₁ ++ l₂) = countRenders l₁ + countRenders l₂ := by
  simp [countRenders, List.filter_append]

@[simp] lemma countErrorLogs_nil : countErrorLogs [] = 0 := rfl

@[simp] lemma countErrorLogs_cons_fetch (v : String) (l : List Event) :
    countErrorLogs (Event.fetchPage v :: l) = countErrorLogs l := rfl

@[simp] lemma countErrorLogs_cons_reject (u : String) (rs : List Reason) (l : List Event) :
    countErrorLogs (Event.rejectLog u rs :: l) = countErrorLogs l := rfl

@[simp] lemma countErrorLogs_cons_render (d : CommentData) (fp : String) (l : List Event) :
    countErrorLogs (Event.render d fp :: l) = countErrorLogs l := rfl

@[simp] lemma countErrorLogs_cons_errorLog (e : Err) (l : List Event) :
    countErrorLogs (Event.errorLog e :: l) = countErrorLogs l + 1 := by
  simp [countErrorLogs, List.filter]

@[simp] lemma countErrorLogs_append (l₁ l₂ : List Event) :
    countErrorLogs (l₁ ++ l₂) = countErrorLogs l₁ + countErrorLogs l₂ := by
  simp [countErrorLogs, List.filter_append]

@[simp] lemma writtenPaths_nil : writtenPaths [] = [] := rfl

@[simp] lemma writtenPaths_cons_fetch (v : String) (l : List Event) :
    writtenPaths (Event.fetchPage v :: l) = writtenPaths l := rfl

@[simp] lemma writtenPaths_cons_reject (u : String) (rs : List Reason) (l : List Event) :
    writtenPaths (Event.rejectLog u rs :: l) = writtenPaths l := rfl

@[simp] lemma writtenPaths_cons_render (d : CommentData) (fp : String) (l : List Event) :
    writtenPaths (Event.render d fp :: l) = fp :: writtenPaths l := rfl

@[simp] lemma writtenPaths_cons_errorLog (e : Err) (l : List Event) :
    writtenPaths (Event.errorLog e :: l) = writtenPaths l := rfl

/-! Facts about the string helpers and the filter. -/

lemma mem_ite_singleton {α : Type} (c : Prop) [Decidable c] (a b : α) :
    (a ∈ if c then [b] else []) ↔ c ∧ a = b := by
  split <;> simp_all

lemma jsIncludes_iff (s pat : String) :
    jsIncludes s pat = true ↔ ∃ l r, l ++ pat.data ++ r = s.data := by
  simp only [jsIncludes, decide_eq_true_eq]
  exact Iff.rfl

lemma jsIncludes_empty (s : String) : jsIncludes s "" = true := by
  simp only [jsIncludes, decide_eq_true_eq]
  exact List.nil_infix

lemma matchesRecord_iff (terms : List String) (ct : String) :
    matchesRecord terms ct = true ↔
      ∃ term ∈ terms, ∃ l r, l ++ (jsToLower term).data ++ r = ct.data := by
  simp [matchesRecord, List.any_eq_true, jsIncludes_iff]

/-- Claim C2: for every term-matched record the filter evaluates the four
checks (minLikes, minReplies, filteredWords, maxChars) independently with
no short-circuiting, accumulating one reason per failed check in that fixed
order; the record is accepted exactly when the accumulated list is empty,
and failing exactly the likes and the max-characters checks yields exactly
those two reasons in that order. -/
theorem c2_reasons_accumulate (p : Params) (ct : String) (lc rc : Nat) :
    (evalReasons p ct lc rc = [] ↔
      ¬(lc < p.minLikes) ∧ ¬(rc < p.minReplies)
        ∧ (p.filteredWords.any fun word => jsIncludes ct (jsToLower word)) = false
        ∧ exceedsMaxChars (jsLength ct) p.maxChars = false)
    ∧ (Reason.notEnoughLikes p.minLikes lc ∈ evalReasons p ct lc rc ↔ lc < p.minLikes)
    ∧ (Reason.notEnoughReplies p.minReplies rc ∈ evalReasons p ct lc rc ↔ rc < p.minReplies)
    ∧ (Reason.containedFilteredWord ∈ evalReasons p ct lc rc ↔
        (p.filteredWords.any fun word => jsIncludes ct (jsToLower word)) = true)
    ∧ (Reason.exceededMaxChars p.maxChars (jsLength ct) ∈ evalReasons p ct lc rc ↔
        exceedsMaxChars (jsLength ct) p.maxChars = true)
    ∧ (lc < p.minLikes → ¬(rc < p.minReplies) →
        (p.filteredWords.any fun word => jsIncludes ct (jsToLower word)) = false →
        exceedsMaxChars (jsLength ct) p.maxChars = true →
        evalReasons p ct lc rc =
          [Reason.notEnoughLikes p.minLikes lc,
            Reason.exceededMaxChars p.maxChars (jsLength ct)]) := by
  unfold evalReasons
  split_ifs <;> simp_all

/-- Witness for C2: minLikes 5 and maxChars 10 against a liked-0 record of
11 characters produce exactly the likes reason then the max-chars reason. -/
theorem c2_reasons_accumulate_witness :
    evalReasons strictParams "hello world" 0 0 =
      [Reason.notEnoughLikes 5 0, Reason.exceededMaxChars (some 10) 11] := by
  have h := (c2_reasons_accumulate strictParams "hello world" 0 0).2.2.2.2.2
  have h2 := h (by decide) (by decide) (by decide) (by decide)
  simpa using h2

lemma processItems_quota_saturated (p : Params) (env : Env) (items : List Item)
    (total : Nat) (h : p.maxLimit ≤ total) :
    processItems p env items total = (total, [], none) := by
  cases items with
  | nil => rfl
  | cons item rest => simp [processItems, h]

/-- Claim C4: a record whose content matches no search term is skipped
entirely: it yields no verdict, and the item-loop step on it is the
identity on the counter, the trace, and the error state. -/
theorem c4_unmatched_skipped (p : Params) (env : Env) (item : Item)
    (rest : List Item) (total : Nat)
    (h : matchesRecord p.searchTerms (jsToLower item.textDisplay) = false) :
    evaluate p item = none
    ∧ processItems p env (item :: rest) total = processItems p env rest total := by
  have hev : evaluate p item = none := by simp [evaluate, h]
  refine ⟨hev, ?_⟩
  by_cases hq : p.maxLimit ≤ total
  · rw [processItems_quota_saturated p env _ _ hq,
      processItems_quota_saturated p env _ _ hq]
  · simp [processItems, hq, hev]

/-- Witness for C4: a record reading "dog" under the "cat" search is
skipped and the scan continues as if it were absent. -/
theorem c4_unmatched_skipped_witness :
    evaluate demoParams (demoItem "dog" 0) = none
    ∧ processItems demoParams okEnv [demoItem "dog" 0, demoItem "cat x" 3] 0
        = processItems demoParams okEnv [demoItem "cat x" 3] 0 :=
  c4_unmatched_skipped demoParams okEnv (demoItem "dog" 0) [demoItem "cat x" 3] 0
    (by decide)

/-- Counterexample for C5: a matched record of six U+0130 characters under
maxChars 10 has raw length 6 (which does not exceed the limit), yet the
code lowercases first — U+0130 lowers to two code units — and compares
length 12, so the verdict rejects with the exceeded-max-characters reason
carrying 12: the check does not compare the raw content length. -/
theorem c5_max_chars_raw_length_cex :
    jsLength dottedContent = 6
    ∧ exceedsMaxChars (jsLength dottedContent) strictParams.maxChars = false
    ∧ jsLength (jsToLower dottedContent) = 12
    ∧ evaluate strictParams (demoItem dottedContent 9) =
        some [Reason.exceededMaxChars (some 10) 12] := by
  decide

/-- Claim C5 (amended): the max-characters check compares the UTF-16
code-unit length of the case-folded content — not the raw content, since
the U+0130 special casing lengthens it — against maxChars; a term-matched
record whose folded length strictly exceeds maxChars gets a verdict that
is not accepted and whose reasons include the exceeded-max-characters
reason carrying that folded length; whenever case folding preserves the
content's code-unit length (all-ASCII content in particular) this
coincides with the raw length, so maxChars 10 against an 11-character
record is rejected with that reason. -/
theorem c5_max_chars_folded_length (p : Params) (item : Item) :
    (matchesRecord p.searchTerms (jsToLower item.textDisplay) = true →
      exceedsMaxChars (jsLength (jsToLower item.textDisplay)) p.maxChars = true →
      ∃ rs, evaluate p item = some rs
        ∧ Reason.exceededMaxChars p.maxChars (jsLength (jsToLower item.textDisplay)) ∈ rs
        ∧ rs ≠ [])
    ∧ (jsLength (jsToLower item.textDisplay) = jsLength item.textDisplay →
        matchesRecord p.searchTerms (jsToLower item.textDisplay) = true →
        exceedsMaxChars (jsLength item.textDisplay) p.maxChars = true →
        ∃ rs, evaluate p item = some rs
          ∧ Reason.exceededMaxChars p.maxChars (jsLength item.textDisplay) ∈ rs
          ∧ rs ≠ []) := by
  have main : matchesRecord p.searchTerms (jsToLower item.textDisplay) = true →
      exceedsMaxChars (jsLength (jsToLower item.textDisplay)) p.maxChars = true →
      ∃ rs, evaluate p item = some rs
        ∧ Reason.exceededMaxChars p.maxChars (jsLength (jsToLower item.textDisplay)) ∈ rs
        ∧ rs ≠ [] := by
    intro hm hx
    have hmem : Reason.exceededMaxChars p.maxChars (jsLength (jsToLower item.textDisplay))
        ∈ evalReasons p (jsToLower item.textDisplay) item.likeCount (replyCountOf item) := by
      unfold evalReasons
      simp [hx]
    refine ⟨_, ?_, hmem, ?_⟩
    · simp [evaluate, hm]
    · intro hnil
      rw [hnil] at hmem
      simp at hmem
  refine ⟨main, fun hpres hm hx => ?_⟩
  have hx2 : exceedsMaxChars (jsLength (jsToLower item.textDisplay)) p.maxChars = true := by
    rw [hpres]
    exact hx
  obtain ⟨rs, h1, h2, h3⟩ := main hm hx2
  rw [hpres] at h2
  exact ⟨rs, h1, h2, h3⟩

/-- Witness for C5 (amended): maxChars 10 against matched all-ASCII
11-character content (folding preserves its length) is rejected with the
exceeded-max-characters reason. -/
theorem c5_max_chars_folded_length_witness :
    ∃ rs, evaluate strictParams (demoItem "hello world" 9) = some rs
      ∧ Reason.exceededMaxChars (some 10) 11 ∈ rs ∧ rs ≠ [] := by
  have h := (c5_max_chars_folded_length strictParams (demoItem "hello world" 9)).2
    (by decide) (by decide) (by decide)
  have e1 : strictParams.maxChars = some 10 := rfl
  have e2 : jsLength (demoItem "hello world" 9).textDisplay = 11 := by decide
  rw [e1, e2] at h
  exact h

/-- Claim C6: the rendered image path is a pure function of the username,
lower-cased with every character outside the alphanumeric class replaced
by an underscore, under the comment-images directory; the username
"O'Brien!" yields o_brien_.png, and any two usernames with the same
sanitized form yield the same path. -/
theorem c6_filename_pure_function :
    imageFilePath obrienUsername = "comment-images/o_brien_.png"
    ∧ ∀ u v : String, sanitizeUsername u = sanitizeUsername v →
        imageFilePath u = imageFilePath v := by
  constructor
  · decide
  · intro u v h
    simp [imageFilePath, h]

/-- Witness for C6: the distinct usernames TestUser and testuser collide
on the same output path. -/
theorem c6_filename_pure_function_witness :
    "TestUser" ≠ "testuser"
    ∧ imageFilePath "TestUser" = imageFilePath "testuser" :=
  ⟨by decide, c6_filename_pure_function.2 "TestUser" "testuser" (by decide)⟩

/-- Claim C10: when the search-term list contains the empty string, every
record is term-matched (the empty string is a substring of anything), so
every record gets a verdict, and it is accepted whenever the four checks
produce no reason. -/
theorem c10_empty_term_matches_all (p : Params) (item : Item)
    (h : "" ∈ p.searchTerms) :
    matchesRecord p.searchTerms (jsToLower item.textDisplay) = true
    ∧ evaluate p item =
        some (evalReasons p (jsToLower item.textDisplay) item.likeCount
          (replyCountOf item))
    ∧ (evalReasons p (jsToLower item.textDisplay) item.likeCount
          (replyCountOf item) = [] →
        evaluate p item = some []) := by
  have hm : matchesRecord p.searchTerms (jsToLower item.textDisplay) = true := by
    have hinc : jsIncludes (jsToLower item.textDisplay) (jsToLower "") = true := by
      have : jsToLower "" = "" := rfl
      rw [this]
      exact jsIncludes_empty _
    simp only [matchesRecord, List.any_eq_true]
    exact ⟨"", h, hinc⟩
  refine ⟨hm, by simp [evaluate, hm], fun hz => by simp [evaluate, hm, hz]⟩

/-- Witness for C10: with the search-term list containing the empty
string, a record whose content shares nothing with any term still gets a
verdict. -/
theorem c10_empty_term_matches_all_witness :
    matchesRecord strictParams.searchTerms (jsToLower (demoItem "zzz" 9).textDisplay)
        = true
    ∧ evaluate strictParams (demoItem "zzz" 9) =
        some (evalReasons strictParams (jsToLower (demoItem "zzz" 9).textDisplay)
          (demoItem "zzz" 9).likeCount (replyCountOf (demoItem "zzz" 9)))
    ∧ (evalReasons strictParams (jsToLower (demoItem "zzz" 9).textDisplay)
          (demoItem "zzz" 9).likeCount (replyCountOf (demoItem "zzz" 9)) = [] →
        evaluate strictParams (demoItem "zzz" 9) = some []) :=
  c10_empty_term_matches_all strictParams (demoItem "zzz" 9) (by decide)

lemma processItems_spec (p : Params) (env : Env) :
    ∀ (items : List Item) (total t : Nat) (evs : List Event) (e : Option Err),
      processItems p env items total = (t, evs, e) →
      total ≤ t ∧ countRenders evs + total = t
        ∧ (total ≤ p.maxLimit → t ≤ p.maxLimit)
        ∧ (e.isSome = true → t < p.maxLimit)
        ∧ countErrorLogs evs = 0 := by
  intro items
  induction items with
  | nil =>
    intro total t evs e h
    simp only [processItems, Prod.mk.injEq] at h
    obtain ⟨rfl, rfl, rfl⟩ := h
    simp
  | cons item rest ih =>
    intro total t evs e h
    by_cases hq : p.maxLimit ≤ total
    · rw [processItems_quota_saturated p env _ _ hq] at h
      simp only [Prod.mk.injEq] at h
      obtain ⟨rfl, rfl, rfl⟩ := h
      simp
    · have hlt : total < p.maxLimit := Nat.not_le.mp hq
      simp only [processItems, if_neg hq] at h
      cases hev : evaluate p item with
      | none =>
        simp only [hev] at h
        exact ih total t evs e h
      | some rs =>
        simp only [hev] at h
        by_cases hr : 0 < rs.length
        · simp only [if_pos hr] at h
          rcases hrec : processItems p env rest total with ⟨t1, evs1, e1⟩
          simp only [hrec] at h
          simp only [Prod.mk.injEq] at h
          obtain ⟨rfl, rfl, rfl⟩ := h
          have H := ih total t1 evs1 e1 hrec
          refine ⟨H.1, by simpa using H.2.1, H.2.2.1, H.2.2.2.1,
            by simpa using H.2.2.2.2⟩
        · simp only [if_neg hr] at h
          cases himg : generateCommentImage env (commentDataOf item) p.theme with
          | error err =>
            simp only [himg] at h
            simp only [Prod.mk.injEq] at h
            obtain ⟨rfl, rfl, rfl⟩ := h
            exact ⟨Nat.le_refl _, by simp, fun _ => Nat.le_of_lt hlt,
              fun _ => hlt, rfl⟩
          | ok fp =>
            simp only [himg] at h
            rcases hrec : processItems p env rest (total + 1) with ⟨t1, evs1, e1⟩
            simp only [hrec] at h
            simp only [Prod.mk.injEq] at h
            obtain ⟨rfl, rfl, rfl⟩ := h
            have H := ih (total + 1) t1 evs1 e1 hrec
            have hren : countRenders (Event.render (commentDataOf item) fp :: evs1)
                = countRenders evs1 + 1 := by simp
            refine ⟨by omega, ?_, fun hle => H.2.2.1 (by omega), H.2.2.2.1,
              by simpa using H.2.2.2.2⟩
            have := H.2.1
            omega

lemma runPages_spec (p : Params) (env : Env) (vid : String) :
    ∀ (pages : List Page) (total t : Nat) (evs : List Event) (e : Option Err),
      runPages p env vid pages total = (t, evs, e) →
      total ≤ t ∧ countRenders evs + total = t
        ∧ (total ≤ p.maxLimit → t ≤ p.maxLimit)
        ∧ (total < p.maxLimit → e.isSome = true → t < p.maxLimit)
        ∧ countErrorLogs evs = 0 := by
  intro pages
  induction pages with
  | nil =>
    intro total t evs e h
    simp only [runPages, Prod.mk.injEq] at h
    obtain ⟨rfl, rfl, rfl⟩ := h
    simp
  | cons page rest ih =>
    intro total t evs e h
    cases page with
    | error err =>
      simp only [runPages, Prod.mk.injEq] at h
      obtain ⟨rfl, rfl, rfl⟩ := h
      exact ⟨Nat.le_refl _, by simp, fun hle => hle, fun hlt _ => hlt, by simp⟩
    | ok items =>
      rcases hpi : processItems p env items total with ⟨t1, evs1, e1⟩
      simp only [runPages, hpi] at h
      have H1 := processItems_spec p env items total t1 evs1 e1 hpi
      cases e1 with
      | some err =>
        simp only [Prod.mk.injEq] at h
        obtain ⟨rfl, rfl, rfl⟩ := h
        exact ⟨H1.1, by simpa using H1.2.1, H1.2.2.1,
          fun _ _ => H1.2.2.2.1 rfl, by simpa using H1.2.2.2.2⟩
      | none =>
        cases rest with
        | nil =>
          simp only [Prod.mk.injEq] at h
          obtain ⟨rfl, rfl, rfl⟩ := h
          exact ⟨H1.1, by simpa using H1.2.1, H1.2.2.1, by simp,
            by simpa using H1.2.2.2.2⟩
        | cons next more =>
          by_cases hcont : t1 < p.maxLimit
          · simp only [if_pos hcont] at h
            rcases hrp : runPages p env vid (next :: more) t1 with ⟨t2, evs2, e2⟩
            simp only [hrp] at h
            simp only [Prod.mk.injEq] at h
            obtain ⟨rfl, rfl, rfl⟩ := h
            have H2 := ih t1 t2 evs2 e2 hrp
            refine ⟨Nat.le_trans H1.1 H2.1, ?_,
              fun hle => H2.2.2.1 (H1.2.2.1 hle),
              fun _ hs => H2.2.2.2.1 hcont hs, ?_⟩
            · have a := H1.2.1
              have b := H2.2.1
              simp
              omega
            · have a := H1.2.2.2.2
              have b := H2.2.2.2.2
              simp [a, b]
          · simp only [if_neg hcont] at h
            simp only [Prod.mk.injEq] at h
            obtain ⟨rfl, rfl, rfl⟩ := h
            exact ⟨H1.1, by simpa using H1.2.1, H1.2.2.1, by simp,
              by simpa using H1.2.2.2.2⟩

lemma runVideos_spec (p : Params) (env : Env) :
    ∀ (source : Source) (total t : Nat) (evs : List Event) (e : Option Err),
      runVideos p env source total = (t, evs, e) →
      total ≤ t ∧ countRenders evs + total = t
        ∧ (total ≤ p.maxLimit → t ≤ p.maxLimit)
        ∧ (total < p.maxLimit → e.isSome = true → t < p.maxLimit)
        ∧ countErrorLogs evs = 0 := by
  intro source
  induction source with
  | nil =>
    intro total t evs e h
    simp only [runVideos, Prod.mk.injEq] at h
    obtain ⟨rfl, rfl, rfl⟩ := h
    simp
  | cons entry rest ih =>
    intro total t evs e h
    rcases entry with ⟨vid, pages⟩
    simp only [runVideos] at h
    rcases hrp : runPages p env vid pages total with ⟨t1, evs1, e1⟩
    simp only [hrp] at h
    have H1 := runPages_spec p env vid pages total t1 evs1 e1 hrp
    cases e1 with
    | some err =>
      simp only [Prod.mk.injEq] at h
      obtain ⟨rfl, rfl, rfl⟩ := h
      exact ⟨H1.1, H1.2.1, H1.2.2.1, fun hlt _ => H1.2.2.2.1 hlt rfl, H1.2.2.2.2⟩
    | none =>
      by_cases hq : p.maxLimit ≤ t1
      · simp only [if_pos hq] at h
        simp only [Prod.mk.injEq] at h
        obtain ⟨rfl, rfl, rfl⟩ := h
        exact ⟨H1.1, H1.2.1, H1.2.2.1, by simp, H1.2.2.2.2⟩
      · simp only [if_neg hq] at h
        rcases hrv : runVideos p env rest t1 with ⟨t2, evs2, e2⟩
        simp only [hrv] at h
        simp only [Prod.mk.injEq] at h
        obtain ⟨rfl, rfl, rfl⟩ := h
        have H2 := ih t1 t2 evs2 e2 hrv
        refine ⟨Nat.le_trans H1.1 H2.1, ?_,
          fun hle => H2.2.2.1 (H1.2.2.1 hle),
          fun _ hs => H2.2.2.2.1 (Nat.not_le.mp hq) hs, ?_⟩
        · have a := H1.2.1
          have b := H2.2.1
          simp
          omega
        · simp [H1.2.2.2.2, H2.2.2.2.2]

lemma processItems_lastRender (p : Params) (env : Env) :
    ∀ (items : List Item) (total t : Nat) (evs : List Event),
      processItems p env items total = (t, evs, none) →
      total < p.maxLimit → t = p.maxLimit →
      ∃ d fp, evs.getLast? = some (Event.render d fp) := by
  intro items
  induction items with
  | nil =>
    intro total t evs h hlt ht
    simp only [processItems, Prod.mk.injEq] at h
    obtain ⟨rfl, rfl, -⟩ := h
    omega
  | cons item rest ih =>
    intro total t evs h hlt ht
    have hq : ¬ p.maxLimit ≤ total := Nat.not_le.mpr hlt
    simp only [processItems, if_neg hq] at h
    cases hev : evaluate p item with
    | none =>
      simp only [hev] at h
      exact ih total t evs h hlt ht
    | some rs =>
      simp only [hev] at h
      by_cases hr : 0 < rs.length
      · simp only [if_pos hr] at h
        rcases hrec : processItems p env rest total with ⟨t1, evs1, e1⟩
        simp only [hrec, Prod.mk.injEq] at h
        obtain ⟨rfl, rfl, he⟩ := h
        obtain ⟨d, fp, hl⟩ := ih total t1 evs1 (by rw [hrec, he]) hlt ht
        refine ⟨d, fp, ?_⟩
        cases evs1 with
        | nil => simp at hl
        | cons x l => simpa using hl
      · simp only [if_neg hr] at h
        cases himg : generateCommentImage env (commentDataOf item) p.theme with
        | error err =>
          simp only [himg] at h
          simp at h
        | ok fp =>
          simp only [himg] at h
          rcases hrec : processItems p env rest (total + 1) with ⟨t1, evs1, e1⟩
          simp only [hrec, Prod.mk.injEq] at h
          obtain ⟨rfl, rfl, he⟩ := h
          by_cases hlt1 : total + 1 < p.maxLimit
          · obtain ⟨d, fp2, hl⟩ := ih (total + 1) t1 evs1 (by rw [hrec, he]) hlt1 ht
            refine ⟨d, fp2, ?_⟩
            cases evs1 with
            | nil => simp at hl
            | cons x l => simpa using hl
          · have hsat : p.maxLimit ≤ total + 1 := Nat.not_lt.mp hlt1
            rw [processItems_quota_saturated p env rest (total + 1) hsat] at hrec
            obtain ⟨-, rfl, -⟩ : total + 1 = t1 ∧ [] = evs1 ∧ none = e1 := by
              simpa using hrec
            exact ⟨commentDataOf item, fp, by simp⟩

lemma runPages_lastRender (p : Params) (env : Env) (vid : String) :
    ∀ (pages : List Page) (total t : Nat) (evs : List Event),
      runPages p env vid pages total = (t, evs, none) →
      total < p.maxLimit → t = p.maxLimit →
      ∃ d fp, evs.getLast? = some (Event.render d fp) := by
  intro pages
  induction pages with
  | nil =>
    intro total t evs h hlt ht
    simp only [runPages, Prod.mk.injEq] at h
    obtain ⟨rfl, rfl, -⟩ := h
    omega
  | cons page rest ih =>
    intro total t evs h hlt ht
    cases page with
    | error err =>
      simp only [runPages] at h
      simp at h
    | ok items =>
      rcases hpi : processItems p env items total with ⟨t1, evs1, e1⟩
      simp only [runPages, hpi] at h
      cases e1 with
      | some err => simp at h
      | none =>
        have hpi' : processItems p env items total = (t1, evs1, none) := hpi
        cases rest with
        | nil =>
          simp only [Prod.mk.injEq] at h
          obtain ⟨rfl, rfl, -⟩ := h
          obtain ⟨d, fp, hl⟩ := processItems_lastRender p env items total t1 evs1 hpi' hlt ht
          refine ⟨d, fp, ?_⟩
          cases evs1 with
          | nil => simp at hl
          | cons x l => simpa using hl
        | cons next more =>
          by_cases hcont : t1 < p.maxLimit
          · simp only [if_pos hcont] at h
            rcases hrp : runPages p env vid (next :: more) t1 with ⟨t2, evs2, e2⟩
            simp only [hrp, Prod.mk.injEq] at h
            obtain ⟨rfl, rfl, he⟩ := h
            obtain ⟨d, fp, hl⟩ := ih t1 t2 evs2 (by rw [hrp, he]) hcont ht
            refine ⟨d, fp, ?_⟩
            rw [List.getLast?_append, hl]
            rfl
          · simp only [if_neg hcont, Prod.mk.injEq] at h
            obtain ⟨rfl, rfl, -⟩ := h
            obtain ⟨d, fp, hl⟩ := processItems_lastRender p env items total t1 evs1 hpi' hlt ht
            refine ⟨d, fp, ?_⟩
            cases evs1 with
            | nil => simp at hl
            | cons x l => simpa using hl

lemma runVideos_lastRender (p : Params) (env : Env) :
    ∀ (source : Source) (total t : Nat) (evs : List Event),
      runVideos p env source total = (t, evs, none) →
      total < p.maxLimit → t = p.maxLimit →
      ∃ d fp, evs.getLast? = some (Event.render d fp) := by
  intro source
  induction source with
  | nil =>
    intro total t evs h hlt ht
    simp only [runVideos, Prod.mk.injEq] at h
    obtain ⟨rfl, rfl, -⟩ := h
    omega
  | cons entry rest ih =>
    intro total t evs h hlt ht
    rcases entry with ⟨vid, pages⟩
    rcases hrp : runPages p env vid pages total with ⟨t1, evs1, e1⟩
    simp only [runVideos, hrp] at h
    cases e1 with
    | some err => simp at h
    | none =>
      have hrp' : runPages p env vid pages total = (t1, evs1, none) := hrp
      by_cases hq : p.maxLimit ≤ t1
      · simp only [if_pos hq, Prod.mk.injEq] at h
        obtain ⟨rfl, rfl, -⟩ := h
        exact runPages_lastRender p env vid pages total t1 evs1 hrp' hlt ht
      · simp only [if_neg hq] at h
        rcases hrv : runVideos p env rest t1 with ⟨t2, evs2, e2⟩
        simp only [hrv, Prod.mk.injEq] at h
        obtain ⟨rfl, rfl, he⟩ := h
        obtain ⟨d, fp, hl⟩ := ih t1 t2 evs2 (by rw [hrv, he]) (Nat.not_le.mp hq) ht
        refine ⟨d, fp, ?_⟩
        rw [List.getLast?_append, hl]
        rfl

lemma evaluate_noTerms (p : Params) (item : Item) (hp : p.searchTerms = []) :
    evaluate p item = none := by
  simp [evaluate, matchesRecord, hp]

lemma processItems_noTerms (p : Params) (env : Env) (hp : p.searchTerms = []) :
    ∀ (items : List Item) (total : Nat),
      processItems p env items total = (total, [], none) := by
  intro items
  induction items with
  | nil => intro total; rfl
  | cons item rest ih =>
    intro total
    by_cases hq : p.maxLimit ≤ total
    · exact processItems_quota_saturated p env _ _ hq
    · simp [processItems, hq, evaluate_noTerms p item hp, ih]

lemma runPages_noTerms (p : Params) (env : Env) (vid : String)
    (hp : p.searchTerms = []) :
    ∀ (pages : List Page) (total t : Nat) (evs : List Event) (e : Option Err),
      runPages p env vid pages total = (t, evs, e) →
      t = total ∧ countRenders evs = 0 := by
  intro pages
  induction pages with
  | nil =>
    intro total t evs e h
    simp only [runPages, Prod.mk.injEq] at h
    obtain ⟨rfl, rfl, -⟩ := h
    simp
  | cons page rest ih =>
    intro total t evs e h
    cases page with
    | error err =>
      simp only [runPages, Prod.mk.injEq] at h
      obtain ⟨rfl, rfl, -⟩ := h
      simp
    | ok items =>
      simp only [runPages, processItems_noTerms p env hp items total] at h
      cases rest with
      | nil =>
        simp only [Prod.mk.injEq] at h
        obtain ⟨rfl, rfl, -⟩ := h
        simp
      | cons next more =>
        by_cases hcont : total < p.maxLimit
        · simp only [if_pos hcont] at h
          rcases hrp : runPages p env vid (next :: more) total with ⟨t2, evs2, e2⟩
          simp only [hrp, Prod.mk.injEq] at h
          obtain ⟨rfl, rfl, -⟩ := h
          obtain ⟨h1, h2⟩ := ih total t2 evs2 e2 hrp
          simp [h1, h2]
        · simp only [if_neg hcont, Prod.mk.injEq] at h
          obtain ⟨rfl, rfl, -⟩ := h
          simp

lemma runVideos_noTerms (p : Params) (env : Env) (hp : p.searchTerms = []) :
    ∀ (source : Source) (total t : Nat) (evs : List Event) (e : Option Err),
      runVideos p env source total = (t, evs, e) →
      t = total ∧ countRenders evs = 0 := by
  intro source
  induction source with
  | nil =>
    intro total t evs e h
    simp only [runVideos, Prod.mk.injEq] at h
    obtain ⟨rfl, rfl, -⟩ := h
    simp
  | cons entry rest ih =>
    intro total t evs e h
    rcases entry with ⟨vid, pages⟩
    rcases hrp : runPages p env vid pages total with ⟨t1, evs1, e1⟩
    obtain ⟨ht1, hc1⟩ := runPages_noTerms p env vid hp pages total t1 evs1 e1 hrp
    rw [ht1] at hrp
    simp only [runVideos, hrp] at h
    cases e1 with
    | some err =>
      simp only [Prod.mk.injEq] at h
      obtain ⟨rfl, rfl, -⟩ := h
      exact ⟨rfl, hc1⟩
    | none =>
      by_cases hq : p.maxLimit ≤ total
      · simp only [if_pos hq, Prod.mk.injEq] at h
        obtain ⟨rfl, rfl, -⟩ := h
        exact ⟨rfl, hc1⟩
      · simp only [if_neg hq] at h
        rcases hrv : runVideos p env rest total with ⟨t2, evs2, e2⟩
        simp only [hrv, Prod.mk.injEq] at h
        obtain ⟨rfl, rfl, -⟩ := h
        obtain ⟨h1, h2⟩ := ih total t2 evs2 e2 hrv
        exact ⟨h1, by simp [hc1, h2]⟩

/-- Claim C1: over any identifiers and pages the accepted-comment counter
never exceeds the quota, the renderer runs at most quota-many times (in
every prefix of the trace), and the instant the counter reaches the quota
both loops halt: the trace ends at that very render event, with no further
record scanned, page fetched, or video started. -/
theorem c1_quota_halt (p : Params) (env : Env) (source : Source)
    (h : 0 < p.maxLimit) :
    (getComments p env source).1 ≤ p.maxLimit
    ∧ countRenders (getComments p env source).2 ≤ p.maxLimit
    ∧ (∀ pre suf, (getComments p env source).2 = pre ++ suf →
        countRenders pre ≤ p.maxLimit)
    ∧ ((getComments p env source).1 = p.maxLimit →
        ∃ d fp, ((getComments p env source).2).getLast? =
          some (Event.render d fp)) := by
  rcases hrv : runVideos p env source 0 with ⟨t, evs, e⟩
  have H := runVideos_spec p env source 0 t evs e hrv
  have hc : countRenders evs = t := by have := H.2.1; omega
  have ht : t ≤ p.maxLimit := H.2.2.1 (Nat.zero_le _)
  cases e with
  | none =>
    have hg : getComments p env source = (t, evs) := by
      simp [getComments, hrv]
    rw [hg]
    dsimp only
    refine ⟨ht, by omega, ?_, ?_⟩
    · intro pre suf hps
      have := congrArg countRenders hps
      simp at this
      omega
    · intro htm
      exact runVideos_lastRender p env source 0 t evs hrv h htm
  | some err =>
    have hlt : t < p.maxLimit := H.2.2.2.1 h rfl
    have hg : getComments p env source = (t, evs ++ [Event.errorLog err]) := by
      simp [getComments, hrv]
    rw [hg]
    dsimp only
    refine ⟨Nat.le_of_lt hlt, by simp; omega, ?_, ?_⟩
    · intro pre suf hps
      have := congrArg countRenders hps
      simp at this
      omega
    · intro htm
      omega

/-- Witness for C1: a quota of 1 against a source holding three matching
records over two videos renders exactly once and the trace ends at that
render. -/
theorem c1_quota_halt_witness :
    (getComments demoParams okEnv demoSource).1 ≤ demoParams.maxLimit
    ∧ countRenders (getComments demoParams okEnv demoSource).2 ≤ demoParams.maxLimit
    ∧ (∃ d fp, ((getComments demoParams okEnv demoSource).2).getLast? =
        some (Event.render d fp)) := by
  have H := c1_quota_halt demoParams okEnv demoSource (by decide)
  exact ⟨H.1, H.2.1, H.2.2.2 (by decide)⟩

/-- Claim C3: the matching predicate holds exactly when the case-folded
content contains some case-folded search term as a substring; the empty
term list matches nothing, and under it a whole run accepts and renders
nothing. -/
theorem c3_matching_predicate (p : Params) (env : Env) (source : Source)
    (terms : List String) (ct : String) :
    (matchesRecord terms ct = true ↔
      ∃ term ∈ terms, ∃ l r, l ++ (jsToLower term).data ++ r = ct.data)
    ∧ matchesRecord [] ct = false
    ∧ (p.searchTerms = [] →
        (getComments p env source).1 = 0
        ∧ countRenders (getComments p env source).2 = 0) := by
  refine ⟨matchesRecord_iff terms ct, by simp [matchesRecord], fun hp => ?_⟩
  rcases hrv : runVideos p env source 0 with ⟨t, evs, e⟩
  obtain ⟨h1, h2⟩ := runVideos_noTerms p env hp source 0 t evs e hrv
  cases e with
  | none => simp [getComments, hrv, h1, h2]
  | some err => simp [getComments, hrv, h1, h2]

/-- Witness for C3: a run configured with no search terms accepts and
renders nothing over a source with available records. -/
theorem c3_matching_predicate_witness :
    (getComments noTermsParams okEnv demoSource).1 = 0
    ∧ countRenders (getComments noTermsParams okEnv demoSource).2 = 0 :=
  (c3_matching_predicate noTermsParams okEnv demoSource [] "").2.2 (by decide)

/-- Claim C9: any error thrown inside the pipeline — by the comment source
during pagination or by the renderer — aborts the whole run: it is caught
exactly once at the top of getComments (no error-log event arises inside
the loops, exactly one is appended by the catch), nothing is re-raised,
and every render event already in the trace is preserved. -/
theorem c9_top_level_catch (p : Params) (env : Env) (source : Source)
    (t : Nat) (evs : List Event) (e : Option Err)
    (h : runVideos p env source 0 = (t, evs, e)) :
    countErrorLogs evs = 0
    ∧ (e = none → getComments p env source = (t, evs))
    ∧ (∀ err, e = some err →
        getComments p env source = (t, evs ++ [Event.errorLog err])
        ∧ countErrorLogs (evs ++ [Event.errorLog err]) = 1
        ∧ countRenders (evs ++ [Event.errorLog err]) = countRenders evs) := by
  have H := runVideos_spec p env source 0 t evs e h
  refine ⟨H.2.2.2.2, fun he => ?_, fun err he => ?_⟩
  · subst he
    simp [getComments, h]
  · subst he
    refine ⟨by simp [getComments, h], by simp [H.2.2.2.2], by simp⟩

/-- Witness for C9: a source whose second page request throws produces a
trace whose render is preserved and that ends with the single error log. -/
theorem c9_top_level_catch_witness :
    countErrorLogs
      [Event.fetchPage "v1",
        Event.render (commentDataOf (demoItem "cat a" 0)) (imageFilePath "Alice"),
        Event.fetchPage "v1"] = 0
    ∧ getComments wideParams okEnv errSource =
        (1, [Event.fetchPage "v1",
          Event.render (commentDataOf (demoItem "cat a" 0)) (imageFilePath "Alice"),
          Event.fetchPage "v1"] ++ [Event.errorLog (Err.sourceFail 7)]) := by
  have H := c9_top_level_catch wideParams okEnv errSource 1
    [Event.fetchPage "v1",
      Event.render (commentDataOf (demoItem "cat a" 0)) (imageFilePath "Alice"),
      Event.fetchPage "v1"] (some (Err.sourceFail 7)) (by decide)
  exact ⟨H.1, (H.2.2 (Err.sourceFail 7) rfl).1⟩

lemma wrapPng_inj :
    Function.Injective (fun s : String => "comment-images/" ++ s ++ ".png") := by
  intro a b h
  apply String.ext
  have h' := String.data_eq_of_eq h
  simp only [String.data_append] at h'
  exact List.append_cancel_left (List.append_cancel_right h')

lemma generateCustomComments_ok (env : Env) (theme : Theme) :
    ∀ (comments : List CommentData),
      (∀ c ∈ comments, generateCommentImage env c theme =
        Except.ok (imageFilePath c.username)) →
      generateCustomComments env theme comments =
        (comments.map (fun c => Event.render c (imageFilePath c.username)), none) := by
  intro comments
  induction comments with
  | nil => intro _; rfl
  | cons c rest ih =>
    intro h
    have hc := h c (by simp)
    have hrest : ∀ x ∈ rest, generateCommentImage env x theme =
        Except.ok (imageFilePath x.username) := fun x hx => h x (by simp [hx])
    simp [generateCustomComments, hc, ih hrest]

lemma countRenders_map_render (f : CommentData → String) (l : List CommentData) :
    countRenders (l.map fun c => Event.render c (f c)) = l.length := by
  induction l with
  | nil => rfl
  | cons c rest ih => simp [ih]

lemma writtenPaths_map_render (f : CommentData → String) (l : List CommentData) :
    writtenPaths (l.map fun c => Event.render c (f c)) = l.map f := by
  induction l with
  | nil => rfl
  | cons c rest ih => simp [ih]

/-- Counterexample for C7: two distinct well-formed custom records whose
usernames sanitize identically are both rendered, yet only one distinct
file path is written, so the run does not produce two image files. -/
theorem c7_custom_render_count_cex :
    collidingComments.length = 2
    ∧ collidingComments.Nodup
    ∧ (generateCustomComments okEnv Theme.dark collidingComments).2 = none
    ∧ countRenders (generateCustomComments okEnv Theme.dark collidingComments).1 = 2
    ∧ (writtenPaths
        (generateCustomComments okEnv Theme.dark collidingComments).1).dedup.length = 1
    ∧ ¬ (writtenPaths
        (generateCustomComments okEnv Theme.dark collidingComments).1).dedup.length = 2 := by
  decide

/-- Claim C7 (amended): a custom list of N well-formed records is rendered
once per record in list order with no filtering, producing N file writes;
the written paths are one per record, and they are N distinct files
exactly when the sanitized usernames are pairwise distinct (records whose
usernames sanitize identically overwrite the same file). -/
theorem c7_custom_render_count (env : Env) (theme : Theme)
    (comments : List CommentData)
    (h : ∀ c ∈ comments, generateCommentImage env c theme =
        Except.ok (imageFilePath c.username)) :
    (generateCustomComments env theme comments).2 = none
    ∧ (generateCustomComments env theme comments).1 =
        comments.map (fun c => Event.render c (imageFilePath c.username))
    ∧ countRenders (generateCustomComments env theme comments).1 = comments.length
    ∧ writtenPaths (generateCustomComments env theme comments).1 =
        comments.map (fun c => imageFilePath c.username)
    ∧ ((comments.map fun c => sanitizeUsername c.username).Nodup →
        (writtenPaths (generateCustomComments env theme comments).1).Nodup
        ∧ (writtenPaths (generateCustomComments env theme comments).1).length
            = comments.length) := by
  have key := generateCustomComments_ok env theme comments h
  rw [key]
  dsimp only
  have hw := writtenPaths_map_render (fun c => imageFilePath c.username) comments
  refine ⟨rfl, rfl, countRenders_map_render _ _, hw, fun hnod => ?_⟩
  have hmm : comments.map (fun c => imageFilePath c.username)
      = (comments.map fun c => sanitizeUsername c.username).map
          (fun s => "comment-images/" ++ s ++ ".png") := by
    rw [List.map_map]
    rfl
  rw [hw, hmm]
  exact ⟨List.Nodup.map wrapPng_inj hnod, by simp⟩

/-- Witness for C7 (amended): two records with distinct sanitized
usernames yield two renders and two distinct written files. -/
theorem c7_custom_render_count_witness :
    (generateCustomComments okEnv Theme.dark distinctComments).2 = none
    ∧ countRenders (generateCustomComments okEnv Theme.dark distinctComments).1 = 2
    ∧ (writtenPaths (generateCustomComments okEnv Theme.dark distinctComments).1).Nodup
    ∧ (writtenPaths
        (generateCustomComments okEnv Theme.dark distinctComments).1).length = 2 := by
  have H := c7_custom_render_count okEnv Theme.dark distinctComments (by
    intro c hc
    simp only [distinctComments, List.mem_cons, List.not_mem_nil, or_false] at hc
    rcases hc with rfl | rfl <;> rfl)
  have hn := H.2.2.2.2 (by decide)
  refine ⟨H.1, ?_, hn.1, ?_⟩
  · rw [H.2.2.1]; decide
  · rw [hn.2]; decide

/-- Counterexample for C8: on a timestamp rejected by both the strict ISO
parse and the permissive fallback, rendering the record does not produce a
best-effort label: the invalid-time error propagates out of the document
computation and no document is produced. -/
theorem c8_date_parse_fallback_cex :
    generateCommentHTML failDates (demoComment "Alice" "hello") Theme.dark
      = Except.error Err.invalidTimeValue
    ∧ (generateCommentHTML failDates (demoComment "Alice" "hello")
        Theme.dark).toOption = none :=
  ⟨rfl, rfl⟩

/-- Claim C8 (amended): the renderer first uses the strict ISO-8601 parse
when it yields a valid date, otherwise falls back to the permissive
generic parse; when both fail, the relative-label computation throws and
the error propagates (no placeholder label is produced). -/
theorem c8_date_parse_fallback (dates : DateLib) (data : CommentData)
    (theme : Theme) :
    (∀ d, dates.parseISO data.datePosted = some d →
      generateCommentHTML dates data theme = Except.ok
        { avatar := data.avatar, username := data.username,
          relativeDate := dates.formatDistanceToNow d, content := data.content,
          likeCount := data.likeCount, isDark := decide (theme = Theme.dark) })
    ∧ (∀ d, dates.parseISO data.datePosted = none →
        dates.newDate data.datePosted = some d →
        generateCommentHTML dates data theme = Except.ok
          { avatar := data.avatar, username := data.username,
            relativeDate := dates.formatDistanceToNow d, content := data.content,
            likeCount := data.likeCount, isDark := decide (theme = Theme.dark) })
    ∧ (dates.parseISO data.datePosted = none →
        dates.newDate data.datePosted = none →
        generateCommentHTML dates data theme = Except.error Err.invalidTimeValue) := by
  refine ⟨fun d hd => ?_, fun d hiso hd => ?_, fun hiso hd => ?_⟩
  · simp [generateCommentHTML, hd]
  · simp [generateCommentHTML, hiso, hd]
  · simp [generateCommentHTML, hiso, hd]

/-- Witness for C8 (amended): with working date oracles the document is
produced with the relative date label. -/
theorem c8_date_parse_fallback_witness :
    generateCommentHTML okDates (demoComment "Alice" "hello") Theme.dark
      = Except.ok
        { avatar := "avatar", username := "Alice",
          relativeDate := "less than a minute ago", content := "hello",
          likeCount := 1, isDark := true } := by
  have H := (c8_date_parse_fallback okDates (demoComment "Alice" "hello")
    Theme.dark).1 0 rfl
  simpa [okDates, demoComment] using H

end YtCommentScraper
